import Mathlib

/-!
Verification development for the ball state-estimation and camera-arbitration
subsystem (BallGroundCollisionFilter / GroundFilter) and for the strategy-node
utility code (Node::ObjectContainer, Field.limitToField).

The repository provides the class header of BallGroundCollisionFilter
(member layout: two GroundFilter instances `m_groundFilter` and `m_pastFilter`,
a `qint64 m_lastVisionTime` watermark, and an `std::optional<BallOffsetInfo>
m_localBallOffset`), but not the method bodies nor the GroundFilter class
itself; those operations are modelled here from the specification.
Node::ObjectContainer and Field.limitToField are embedded from their sources.

Numeric values are modelled as rationals; a possibly non-finite floating-point
input field is modelled as `Option ℚ` with `none` standing for a non-finite
value (NaN or infinity).
-/

namespace BallTracking

/-- Tunable rolling-friction decay rate of the motion model (per time unit).
The spec leaves the exact numerical form open as a tunable parameter. -/
def frictionRate : ℚ := 1 / 100

/-- Tunable measurement-noise weight of the linear estimator gain. -/
def measurementNoise : ℚ := 1 / 10

/-- Base distance threshold of the statistical gate. -/
def gateBase : ℚ := 1 / 2

/-- Scaling of the statistical gate threshold by the current uncertainty. -/
def gateUncertaintyScale : ℚ := 1

/-- Tolerance within which the past (lagged) filter corroborates a frame. -/
def pastAgreementTolerance : ℚ := 1 / 2

/-- Down-sampling interval of the lagged filter (it reacts more slowly). -/
def pastLagInterval : ℤ := 5

/-- Capture radius within which a robot can take possession of the ball. -/
def dribbleCaptureRadius : ℚ := 1 / 5

/-- Tolerance on the drift of an active ball offset before it is cleared. -/
def offsetDriftTolerance : ℚ := 1 / 10

/-- Squared Euclidean distance between two 2D points. -/
def distSq (p q : ℚ × ℚ) : ℚ :=
  (p.1 - q.1) * (p.1 - q.1) + (p.2 - q.2) * (p.2 - q.2)

/-- Modelled from the spec: GroundFilter state (section 3 of the spec) —
2D position, 2D velocity, an uncertainty measure, the timestamp of the last
update, and the camera identifier currently trusted as primary. The
GroundFilter class body is not part of the available sources. -/
structure GroundFilter where
  px : ℚ
  py : ℚ
  vx : ℚ
  vy : ℚ
  uncertainty : ℚ
  lastTime : ℤ
  primaryCamera : ℤ
deriving DecidableEq

/-- Modelled from the spec: one 2D position observation at a given timestamp,
the argument of GroundFilter.correct. -/
structure Measurement where
  time : ℤ
  mx : ℚ
  my : ℚ
deriving DecidableEq

/-- Modelled from the spec: `predict(toTimestamp)` advances the state forward
in time with a rolling-friction motion model (velocity decays toward zero at a
fixed rate, position integrates velocity); predicting to a timestamp at or
before the current state timestamp is a no-op returning the current state. -/
def GroundFilter.predict (s : GroundFilter) (toTimestamp : ℤ) : GroundFilter :=
  if toTimestamp ≤ s.lastTime then s
  else
    let dt : ℚ := ((toTimestamp - s.lastTime : ℤ) : ℚ)
    let decay : ℚ := max 0 (1 - frictionRate * dt)
    { s with
      px := s.px + s.vx * dt
      py := s.py + s.vy * dt
      vx := s.vx * decay
      vy := s.vy * decay
      lastTime := toTimestamp }

/-- Modelled from the spec: `currentState(atTimestamp)` is the read-only
prediction query used for publication between updates. -/
def GroundFilter.currentState (s : GroundFilter) (atTimestamp : ℤ) : GroundFilter :=
  s.predict atTimestamp

/-- Modelled from the spec: `correct(measurement)` first predicts to the
measurement's timestamp, then blends the predicted state with the observation
weighted by the relative uncertainties (linear estimator gain); a correction
that would produce a non-finite result (degenerate zero gain denominator) is
rejected and the prior state retained. -/
def GroundFilter.correct (s : GroundFilter) (m : Measurement) : GroundFilter :=
  let sp := s.predict m.time
  let denom := sp.uncertainty + measurementNoise
  if denom = 0 then s
  else
    let k := sp.uncertainty / denom
    { sp with
      px := sp.px + k * (m.mx - sp.px)
      py := sp.py + k * (m.my - sp.py)
      uncertainty := sp.uncertainty - k * sp.uncertainty }

/-- A tracked robot's identifier, 2D position and 2D velocity, supplied per
invocation as a read-only snapshot (spec section 3, RobotInfo). -/
structure RobotInfo where
  id : ℤ
  rx : ℚ
  ry : ℚ
  rvx : ℚ
  rvy : ℚ
deriving DecidableEq

/-- One detection report: source camera identifier, detection timestamp, 2D
ball position (Option ℚ models a possibly non-finite float), optional
detection confidence, and the robots visible at that timestamp (spec
section 3, VisionFrame). -/
structure VisionFrame where
  cameraId : ℤ
  time : ℤ
  x : Option ℚ
  y : Option ℚ
  confidence : Option ℚ
  robots : List RobotInfo
deriving DecidableEq

/-- Well-formedness of a frame: finite coordinates and a possible
(non-negative) camera identifier. -/
def VisionFrame.wf (f : VisionFrame) : Bool :=
  f.x.isSome && f.y.isSome && decide (0 ≤ f.cameraId)

/-- The reported 2D position of a frame (0 substituted for non-finite
fields, which well-formed frames do not have). -/
def VisionFrame.pos (f : VisionFrame) : ℚ × ℚ :=
  (f.x.getD 0, f.y.getD 0)

/-- A 2D offset vector plus the identifier of the robot the ball is currently
considered attached to (BallOffsetInfo in the header). -/
structure BallOffsetInfo where
  ballOffsetX : ℚ
  ballOffsetY : ℚ
  robotIdentifier : ℤ
deriving DecidableEq

/-- The concrete filter instance, with the member layout of the header:
primary GroundFilter, lagged GroundFilter, last-vision-time watermark, and an
optional ball-offset (possession) record. -/
structure BallGroundCollisionFilter where
  m_groundFilter : GroundFilter
  m_pastFilter : GroundFilter
  m_lastVisionTime : ℤ
  m_localBallOffset : Option BallOffsetInfo
deriving DecidableEq

/-- Modelled from the spec: the statistical gate of acceptDetection step (b) —
the frame passes when its reported position deviates from the filter's
predicted position at the frame timestamp by at most a distance threshold
scaled by the filter's current uncertainty. -/
def passesGate (g : GroundFilter) (f : VisionFrame) : Bool :=
  let pred := g.currentState f.time
  let threshold := gateBase + gateUncertaintyScale * g.uncertainty
  decide (distSq f.pos (pred.px, pred.py) ≤ threshold * threshold)

/-- Modelled from the spec: acceptDetection step (c) — whether the past
(lagged) filter's predicted position agrees with the frame within tolerance. -/
def pastAgrees (g : GroundFilter) (f : VisionFrame) : Bool :=
  let pred := g.currentState f.time
  decide (distSq f.pos (pred.px, pred.py) ≤
    pastAgreementTolerance * pastAgreementTolerance)

/-- Modelled from the spec: acceptDetection applies its gating policy in
order — (a) reject an out-of-order frame from a camera different from the
owned primary camera; (b) reject when the statistical gate fails; (c) unless
the past filter's prediction agrees with the frame within tolerance, in which
case accept anyway. The method body is absent from the available sources. -/
def BallGroundCollisionFilter.acceptDetection
    (f : BallGroundCollisionFilter) (frame : VisionFrame) : Bool :=
  if frame.cameraId ≠ f.m_groundFilter.primaryCamera ∧
      frame.time ≤ f.m_groundFilter.lastTime then false
  else if passesGate f.m_groundFilter frame then true
  else pastAgrees f.m_pastFilter frame

/-- Modelled from the spec: BallOffsetTracker.update (section 4.2) — on an
active offset, keep it while the owning robot is present and the offset stays
within tolerance, clear it otherwise; with no active offset, capture a nearby
robot as the new owner. -/
def offsetUpdate (cur : Option BallOffsetInfo) (ballX ballY : ℚ)
    (robots : List RobotInfo) : Option BallOffsetInfo :=
  match cur with
  | some info =>
    match robots.find? (fun r => decide (r.id = info.robotIdentifier)) with
    | none => none
    | some r =>
      if distSq (r.rx + info.ballOffsetX, r.ry + info.ballOffsetY)
          (ballX, ballY) ≤ offsetDriftTolerance * offsetDriftTolerance
      then some info else none
  | none =>
    match robots.find? (fun r =>
        decide (distSq (r.rx, r.ry) (ballX, ballY) ≤
          dribbleCaptureRadius * dribbleCaptureRadius)) with
    | some r => some ⟨ballX - r.rx, ballY - r.ry, r.id⟩
    | none => none

/-- Modelled from the spec: the lagged filter sees a down-sampled view of the
stream, so it is corrected only when enough time passed since its own last
update — it reacts more slowly than the primary filter. -/
def pastCorrect (g : GroundFilter) (m : Measurement) : GroundFilter :=
  if g.lastTime + pastLagInterval ≤ m.time then g.correct m else g

/-- Modelled from the spec: processVisionFrame corrects the primary filter
with the frame's position and timestamp, corrects the lagged filter on its
down-sampled view, feeds the frame position into the offset tracker with the
robots visible at that timestamp, and refreshes the last-vision-time
watermark; malformed input is dropped silently, and a re-delivered frame
(timestamp not beyond the watermark) is deduplicated. The method body is
absent from the available sources. -/
def BallGroundCollisionFilter.processVisionFrame
    (f : BallGroundCollisionFilter) (frame : VisionFrame) :
    BallGroundCollisionFilter :=
  if frame.wf = false then f
  else if frame.time ≤ f.m_lastVisionTime then f
  else
    let m : Measurement := ⟨frame.time, frame.pos.1, frame.pos.2⟩
    { m_groundFilter := f.m_groundFilter.correct m
      m_pastFilter := pastCorrect f.m_pastFilter m
      m_lastVisionTime := frame.time
      m_localBallOffset :=
        offsetUpdate f.m_localBallOffset frame.pos.1 frame.pos.2 frame.robots }

/-- The published ball state: 2D position and 2D velocity, always fully
written (spec: never leaves the output partially filled). -/
structure Ball where
  bpx : ℚ
  bpy : ℚ
  bvx : ℚ
  bvy : ℚ
deriving DecidableEq

/-- The ball state derived from the primary GroundFilter's read-only
currentState query at the given time. -/
def ballFromFilter (f : BallGroundCollisionFilter) (time : ℤ) : Ball :=
  let s := f.m_groundFilter.currentState time
  ⟨s.px, s.py, s.vx, s.vy⟩

/-- Modelled from the spec: writeBallState writes the offset-tracker's
predicted position (robot position plus stored offset, velocity taken from
the robot's motion) when a BallOffsetInfo is active and its owning robot is
present in the robot list, and otherwise writes the primary GroundFilter's
currentState at the query time. The method body is absent from the available
sources. -/
def BallGroundCollisionFilter.writeBallState
    (f : BallGroundCollisionFilter) (time : ℤ) (robots : List RobotInfo) :
    Ball :=
  match f.m_localBallOffset with
  | some info =>
    match robots.find? (fun r => decide (r.id = info.robotIdentifier)) with
    | some r =>
      ⟨r.rx + info.ballOffsetX, r.ry + info.ballOffsetY, r.rvx, r.rvy⟩
    | none => ballFromFilter f time
  | none => ballFromFilter f time

/-- Modelled from the spec: handover construction — a copy of the donor that
duplicates both GroundFilter instances, the offset state and the watermark,
rebinding only the primary filter's trusted-camera identifier. The
constructor body is absent from the available sources. -/
def BallGroundCollisionFilter.handover
    (donor : BallGroundCollisionFilter) (primaryCamera : ℤ) :
    BallGroundCollisionFilter :=
  { m_groundFilter := { donor.m_groundFilter with primaryCamera := primaryCamera }
    m_pastFilter := donor.m_pastFilter
    m_lastVisionTime := donor.m_lastVisionTime
    m_localBallOffset := donor.m_localBallOffset }

/-- Modelled from the spec: chooseBall tie-break step (1) — the frame comes
from the camera currently owned as primary and independently passes the
statistical gate. -/
def primaryGatePass (f : BallGroundCollisionFilter) (g : VisionFrame) : Bool :=
  decide (g.cameraId = f.m_groundFilter.primaryCamera) &&
    passesGate f.m_groundFilter g

/-- Index (counting from i) of the first frame from the owned primary camera
that passes the statistical gate, if any. -/
def findPrimaryIdx (f : BallGroundCollisionFilter) :
    List VisionFrame → ℕ → Option ℕ
  | [], _ => none
  | g :: rest, i =>
    if primaryGatePass f g then some i else findPrimaryIdx f rest (i + 1)

/-- Modelled from the spec: the tie-break key of chooseBall steps (2) and
(3) — distance to the current predicted position, then higher confidence
(minimised as its negation), then lowest camera identifier. -/
def frameKey (f : BallGroundCollisionFilter) (g : VisionFrame) : ℚ × ℚ × ℤ :=
  (distSq g.pos
    ((f.m_groundFilter.currentState g.time).px,
     (f.m_groundFilter.currentState g.time).py),
   -(g.confidence.getD 0), g.cameraId)

/-- Strict lexicographic comparison of tie-break keys. -/
def keyBetter (a b : ℚ × ℚ × ℤ) : Bool :=
  decide (a.1 < b.1 ∨ (a.1 = b.1 ∧ (a.2.1 < b.2.1 ∨
    (a.2.1 = b.2.1 ∧ a.2.2 < b.2.2))))

/-- The reflexive lexicographic order on tie-break keys: smaller distance to
the prediction first, then smaller negated confidence (that is, higher
confidence), then smaller camera identifier. -/
def keyLE (a b : ℚ × ℚ × ℤ) : Prop :=
  a.1 < b.1 ∨ (a.1 = b.1 ∧ (a.2.1 < b.2.1 ∨
    (a.2.1 = b.2.1 ∧ a.2.2 ≤ b.2.2)))

/-- Fold selecting the best frame by tie-break key, carrying its index and
its key; a later frame replaces the running best only when its key is
strictly better, so on equal keys the earlier index is kept. -/
def bestByKey (f : BallGroundCollisionFilter) :
    List VisionFrame → ℕ → ℕ × (ℚ × ℚ × ℤ) → ℕ × (ℚ × ℚ × ℤ)
  | [], _, best => best
  | g :: rest, i, best =>
    if keyBetter (frameKey f g) best.2 then
      bestByKey f rest (i + 1) (i, frameKey f g)
    else bestByKey f rest (i + 1) best

/-- Modelled from the spec: chooseBall returns the index of the frame from
the owned primary camera when it passes the statistical gate, and otherwise
the index of the frame closest to the current predicted position, ties broken
by higher confidence, then by lowest camera identifier. The method body is
absent from the available sources. -/
def BallGroundCollisionFilter.chooseBall
    (f : BallGroundCollisionFilter) (frames : List VisionFrame) : ℕ :=
  match findPrimaryIdx f frames 0 with
  | some i => i
  | none =>
    match frames with
    | [] => 0
    | g :: rest => (bestByKey f rest 1 (0, frameKey f g)).1

end BallTracking

namespace Node

/-- The children store of Node::ObjectContainer: an association of string
indices to owned child objects, embedding the std::map member `m_children`
(the stored objects are abstracted by a type parameter). -/
structure ObjectContainer (α : Type) where
  m_children : List (String × α)
deriving DecidableEq

/-- Embeds Node::ObjectContainer::get: looks the index up in m_children and
returns the stored child, or nullptr (none) when the index is absent. -/
def ObjectContainer.get {α : Type} (c : ObjectContainer α) (index : String) :
    Option α :=
  match c.m_children.find? (fun child => decide (child.1 = index)) with
  | some child => some child.2
  | none => none

/-- Embeds Node::ObjectContainer::put: inserts via map::emplace, which is a
no-op when the key already exists, so an existing child is never replaced. -/
def ObjectContainer.put {α : Type} (c : ObjectContainer α) (index : String)
    (obj : α) : ObjectContainer α :=
  if (c.m_children.find? (fun child => decide (child.1 = index))).isSome then c
  else ⟨c.m_children ++ [(index, obj)]⟩

end Node

namespace Field

/-- A 2D vector of field coordinates. -/
structure Vec2 where
  x : ℚ
  y : ℚ
deriving DecidableEq

/-- The external world geometry constants consulted by Field.limitToField. -/
structure Geometry where
  FieldWidthHalf : ℚ
  FieldHeightHalf : ℚ
deriving DecidableEq

/-- Modelled from the spec: `math.bound` of the base math library is not
among the available sources; its contract at the call sites (clamping a value
into an interval, e.g. "returns the minimum of dx and dy" for
`math.bound(0, dx, dy)`) is the clamp min (max vmin v) vmax. -/
def mathBound (vmin v vmax : ℚ) : ℚ := min (max vmin v) vmax

/-- Embeds Field.limitToField: clamps the y coordinate to the field height
half extended by boundaryWidth and the x coordinate to the field width half
extended by boundaryWidth. -/
def limitToField (G : Geometry) (pos : Vec2) (boundaryWidth : ℚ) : Vec2 :=
  ⟨mathBound (-(G.FieldWidthHalf + boundaryWidth)) pos.x
     (G.FieldWidthHalf + boundaryWidth),
   mathBound (-(G.FieldHeightHalf + boundaryWidth)) pos.y
     (G.FieldHeightHalf + boundaryWidth)⟩

end Field

namespace BallTracking

/-- A GroundFilter tracking a stationary ball at the origin with low
uncertainty, its last update at time 0, trusting camera 0. -/
def ballAtOrigin : GroundFilter := ⟨0, 0, 0, 0, 1 / 100, 0, 0⟩

/-- A filter instance whose primary and lagged filters both track a
stationary ball at the origin with low uncertainty. -/
def originFilter : BallGroundCollisionFilter := ⟨ballAtOrigin, ballAtOrigin, 0, none⟩

/-- A frame from the primary camera reporting a position 5 meters away at the
next timestamp. -/
def farFrame : VisionFrame := ⟨0, 1, some 5, some 0, none, []⟩

/-- A frame from the primary camera reporting the predicted position at the
next timestamp. -/
def nearFrame : VisionFrame := ⟨0, 1, some 0, some 0, none, []⟩

/-- An out-of-order frame from a camera different from the owned primary. -/
def staleFrame : VisionFrame := ⟨1, 0, some 0, some 0, none, []⟩

/-- A malformed frame: its x coordinate is non-finite. -/
def badFrame : VisionFrame := ⟨0, 1, none, some 0, none, []⟩

/-- A GroundFilter state with a degenerate (zero) gain denominator. -/
def degenerateFilter : GroundFilter := ⟨0, 0, 0, 0, -(1 / 10), 0, 0⟩

/-- A sample position observation at timestamp 1. -/
def sampleMeasurement : Measurement := ⟨1, 1, 0⟩

/-- A filter owning camera 1 as primary and predicting the origin. -/
def tieFilter : BallGroundCollisionFilter :=
  ⟨⟨0, 0, 0, 0, 1 / 100, 0, 1⟩, ⟨0, 0, 0, 0, 1 / 100, 0, 1⟩, 0, none⟩

/-- The camera-1 frame at position (0, 0) of the chooseBall example. -/
def tieFrame1 : VisionFrame := ⟨1, 1, some 0, some 0, none, []⟩

/-- The camera-2 frame at position (0.01, 0) of the chooseBall example. -/
def tieFrame2 : VisionFrame := ⟨2, 1, some (1 / 100), some 0, none, []⟩

/-- A non-primary-camera frame 3 meters from the prediction (distance
tie-break example). -/
def distFrameA : VisionFrame := ⟨2, 1, some 3, some 0, none, []⟩

/-- A non-primary-camera frame 1 meter from the prediction (distance
tie-break example). -/
def distFrameB : VisionFrame := ⟨3, 1, some 1, some 0, none, []⟩

/-- A non-primary-camera frame at distance 1 with confidence 0.5
(confidence tie-break example). -/
def confFrameA : VisionFrame := ⟨2, 1, some 1, some 0, some (1 / 2), []⟩

/-- A non-primary-camera frame at distance 1 with higher confidence 0.75
(confidence tie-break example). -/
def confFrameB : VisionFrame := ⟨3, 1, some (-1), some 0, some (3 / 4), []⟩

/-- A camera-5 frame at distance 1 with no confidence (camera-identifier
tie-break example). -/
def camFrameA : VisionFrame := ⟨5, 1, some 1, some 0, none, []⟩

/-- A camera-4 frame at distance 1 with no confidence (camera-identifier
tie-break example). -/
def camFrameB : VisionFrame := ⟨4, 1, some (-1), some 0, none, []⟩

/-- A sample active ball offset owned by robot 7. -/
def offsetSampleInfo : BallOffsetInfo := ⟨1 / 10, 0, 7⟩

/-- A sample robot snapshot for robot 7 at position (2, 3). -/
def offsetSampleRobot : RobotInfo := ⟨7, 2, 3, 0, 0⟩

/-- A filter instance with an active ball offset owned by robot 7. -/
def offsetFilter : BallGroundCollisionFilter :=
  ⟨ballAtOrigin, ballAtOrigin, 0, some offsetSampleInfo⟩

end BallTracking

/-- A sample world geometry: field width half 4.5, field height half 3. -/
def sampleGeometry : Field.Geometry := ⟨9 / 2, 3⟩

/-- A sample container holding one child under index "a". -/
def sampleContainer : Node.ObjectContainer ℕ := ⟨[("a", 1)]⟩

namespace BallTracking

/-- Prediction does not change the uncertainty measure. -/
theorem uncertainty_predict (s : GroundFilter) (t : ℤ) :
    (s.predict t).uncertainty = s.uncertainty := by
  unfold GroundFilter.predict
  split <;> rfl

/-- Prediction never moves the last-update timestamp backward. -/
theorem lastTime_predict (s : GroundFilter) (t : ℤ) :
    s.lastTime ≤ (s.predict t).lastTime := by
  unfold GroundFilter.predict
  split
  · exact le_refl _
  · next h =>
    show s.lastTime ≤ t
    omega

/-- Correction never moves the last-update timestamp backward. -/
theorem lastTime_correct (s : GroundFilter) (m : Measurement) :
    s.lastTime ≤ (s.correct m).lastTime := by
  unfold GroundFilter.correct
  simp only []
  split
  · exact le_refl _
  · exact lastTime_predict s m.time

/-- Across any sequence of corrections the last-update timestamp is
monotonically non-decreasing. -/
theorem lastTime_foldl_correct (ms : List Measurement) :
    ∀ s : GroundFilter, s.lastTime ≤ (ms.foldl GroundFilter.correct s).lastTime := by
  induction ms with
  | nil => intro s; exact le_refl _
  | cons m rest ih =>
    intro s
    exact le_trans (lastTime_correct s m) (ih (s.correct m))

/-- C5: a GroundFilter never moves time backward — predict with a timestamp
at or before the current state timestamp is a no-op returning the current
state, and across successive updates (predictions, corrections, and any
sequence of corrections) the last-update timestamp is monotonically
non-decreasing. -/
theorem groundFilter_time_monotone (s : GroundFilter) (t : ℤ)
    (m : Measurement) (ms : List Measurement) :
    (t ≤ s.lastTime → s.predict t = s) ∧
    s.lastTime ≤ (s.predict t).lastTime ∧
    s.lastTime ≤ (s.correct m).lastTime ∧
    s.lastTime ≤ (ms.foldl GroundFilter.correct s).lastTime := by
  refine ⟨?_, lastTime_predict s t, lastTime_correct s m, lastTime_foldl_correct ms s⟩
  intro h
  unfold GroundFilter.predict
  simp [h]

/-- Witness for C5 at a concrete filter, timestamp and measurements. -/
theorem groundFilter_time_monotone_witness :
    ((0 : ℤ) ≤ ballAtOrigin.lastTime ∧ ballAtOrigin.predict 0 = ballAtOrigin) ∧
    ballAtOrigin.lastTime ≤ (ballAtOrigin.predict 0).lastTime ∧
    ballAtOrigin.lastTime ≤ (ballAtOrigin.correct sampleMeasurement).lastTime ∧
    ballAtOrigin.lastTime ≤
      ([sampleMeasurement].foldl GroundFilter.correct ballAtOrigin).lastTime :=
  ⟨⟨by decide,
    (groundFilter_time_monotone ballAtOrigin 0 sampleMeasurement [sampleMeasurement]).1
      (by decide)⟩,
   (groundFilter_time_monotone ballAtOrigin 0 sampleMeasurement [sampleMeasurement]).2.1,
   (groundFilter_time_monotone ballAtOrigin 0 sampleMeasurement [sampleMeasurement]).2.2.1,
   (groundFilter_time_monotone ballAtOrigin 0 sampleMeasurement [sampleMeasurement]).2.2.2⟩

/-- C2: a correction never increases the uncertainty measure — for any state
with the non-negative uncertainty maintained by all corrections, the
uncertainty immediately after correct is at most its value immediately
before, and stays non-negative (so the bound applies along every sequence of
accepted corrections). -/
theorem correct_uncertainty_nonincreasing (s : GroundFilter) (m : Measurement)
    (h : 0 ≤ s.uncertainty) :
    (s.correct m).uncertainty ≤ s.uncertainty ∧
    0 ≤ (s.correct m).uncertainty := by
  have hp := uncertainty_predict s m.time
  unfold GroundFilter.correct
  simp only []
  split
  · exact ⟨le_refl _, h⟩
  · next hne =>
    rw [hp] at hne
    have hP : (s.predict m.time).uncertainty = s.uncertainty := hp
    have hden : (0 : ℚ) < s.uncertainty + measurementNoise := by
      unfold measurementNoise
      linarith
    constructor
    · show (s.predict m.time).uncertainty -
        (s.predict m.time).uncertainty /
          ((s.predict m.time).uncertainty + measurementNoise) *
          (s.predict m.time).uncertainty ≤ s.uncertainty
      rw [hP]
      have hk : 0 ≤ s.uncertainty / (s.uncertainty + measurementNoise) *
          s.uncertainty :=
        mul_nonneg (div_nonneg h (le_of_lt hden)) h
      linarith
    · show 0 ≤ (s.predict m.time).uncertainty -
        (s.predict m.time).uncertainty /
          ((s.predict m.time).uncertainty + measurementNoise) *
          (s.predict m.time).uncertainty
      rw [hP]
      have hkey : s.uncertainty -
          s.uncertainty / (s.uncertainty + measurementNoise) * s.uncertainty =
          s.uncertainty * measurementNoise / (s.uncertainty + measurementNoise) := by
        field_simp
        ring
      rw [hkey]
      have hnn : 0 ≤ s.uncertainty * measurementNoise := by
        unfold measurementNoise
        positivity
      exact div_nonneg hnn (le_of_lt hden)

/-- Witness for C2 at a concrete low-uncertainty filter and measurement. -/
theorem correct_uncertainty_nonincreasing_witness :
    (ballAtOrigin.correct sampleMeasurement).uncertainty ≤
      ballAtOrigin.uncertainty ∧
    0 ≤ (ballAtOrigin.correct sampleMeasurement).uncertainty :=
  correct_uncertainty_nonincreasing ballAtOrigin sampleMeasurement
    (by norm_num [ballAtOrigin])

/-- C6: processing the identical VisionFrame twice in a row leaves the
filter in the same state as processing it once — the second delivery is
deduplicated by the last-vision-time watermark. -/
theorem processVisionFrame_idempotent (f : BallGroundCollisionFilter)
    (frame : VisionFrame) :
    (f.processVisionFrame frame).processVisionFrame frame =
      f.processVisionFrame frame := by
  by_cases hwf : frame.wf = false
  · simp [BallGroundCollisionFilter.processVisionFrame, hwf]
  · by_cases ht : frame.time ≤ f.m_lastVisionTime
    · simp [BallGroundCollisionFilter.processVisionFrame, hwf, ht]
    · simp [BallGroundCollisionFilter.processVisionFrame, hwf, ht]

/-- C7: malformed input (a non-finite numeric field or an impossible camera
identifier) is dropped silently by processVisionFrame, leaving the filter
state unchanged, and a correction whose linear-gain denominator is degenerate
(would produce a non-finite result) is rejected with the prior GroundFilter
state retained. -/
theorem malformed_input_dropped (f : BallGroundCollisionFilter)
    (frame : VisionFrame) (s : GroundFilter) (m : Measurement)
    (hw : frame.wf = false)
    (hd : s.uncertainty + measurementNoise = 0) :
    f.processVisionFrame frame = f ∧ s.correct m = s := by
  constructor
  · simp [BallGroundCollisionFilter.processVisionFrame, hw]
  · have hp := uncertainty_predict s m.time
    unfold GroundFilter.correct
    simp only []
    rw [hp, hd]
    simp

/-- Witness for C7 at a concrete malformed frame and degenerate state. -/
theorem malformed_input_dropped_witness :
    originFilter.processVisionFrame badFrame = originFilter ∧
    degenerateFilter.correct sampleMeasurement = degenerateFilter :=
  malformed_input_dropped originFilter badFrame degenerateFilter
    sampleMeasurement (by decide) (by norm_num [degenerateFilter, measurementNoise])

/-- C1: acceptDetection applies its gating policy in order — (a) an
out-of-order frame from a camera different from the owned primary is
rejected; (b) otherwise a frame passing the statistical gate is accepted;
(c) otherwise the frame is accepted exactly when the past (lagged) filter's
prediction agrees with it within tolerance; in particular, for a filter
tracking a stationary ball at the origin with low uncertainty, a frame
reporting a position 5 meters away at the next timestamp, uncorroborated by
the lagged filter, is rejected. -/
theorem acceptDetection_gate_order (f : BallGroundCollisionFilter)
    (frame : VisionFrame) :
    (frame.cameraId ≠ f.m_groundFilter.primaryCamera ∧
        frame.time ≤ f.m_groundFilter.lastTime →
      f.acceptDetection frame = false) ∧
    (¬(frame.cameraId ≠ f.m_groundFilter.primaryCamera ∧
        frame.time ≤ f.m_groundFilter.lastTime) →
      passesGate f.m_groundFilter frame = true →
      f.acceptDetection frame = true) ∧
    (¬(frame.cameraId ≠ f.m_groundFilter.primaryCamera ∧
        frame.time ≤ f.m_groundFilter.lastTime) →
      passesGate f.m_groundFilter frame = false →
      f.acceptDetection frame = pastAgrees f.m_pastFilter frame) ∧
    originFilter.acceptDetection farFrame = false := by
  refine ⟨?_, ?_, ?_, ?_⟩
  · intro h
    simp [BallGroundCollisionFilter.acceptDetection, h]
  · intro h hg
    simp [BallGroundCollisionFilter.acceptDetection, h, hg]
  · intro h hg
    simp [BallGroundCollisionFilter.acceptDetection, h, hg]
  · norm_num [BallGroundCollisionFilter.acceptDetection, passesGate, pastAgrees,
      GroundFilter.currentState, GroundFilter.predict, distSq, VisionFrame.pos,
      originFilter, ballAtOrigin, farFrame, gateBase, gateUncertaintyScale,
      pastAgreementTolerance, frictionRate]

/-- Witness for C1: the three gating steps exercised at concrete inputs — an
out-of-order cross-camera frame is rejected, a frame at the predicted
position is accepted, and a far frame is decided by the lagged filter's
second opinion. -/
theorem acceptDetection_gate_order_witness :
    originFilter.acceptDetection staleFrame = false ∧
    originFilter.acceptDetection nearFrame = true ∧
    originFilter.acceptDetection farFrame =
      pastAgrees originFilter.m_pastFilter farFrame :=
  ⟨(acceptDetection_gate_order originFilter staleFrame).1 (by decide),
   (acceptDetection_gate_order originFilter nearFrame).2.1 (by decide)
     (by norm_num [passesGate, GroundFilter.currentState, GroundFilter.predict,
       distSq, VisionFrame.pos, originFilter, ballAtOrigin, nearFrame, gateBase,
       gateUncertaintyScale, frictionRate]),
   (acceptDetection_gate_order originFilter farFrame).2.2.1 (by decide)
     (by norm_num [passesGate, GroundFilter.currentState, GroundFilter.predict,
       distSq, VisionFrame.pos, originFilter, ballAtOrigin, farFrame, gateBase,
       gateUncertaintyScale, frictionRate])⟩

/-- The published ball state ignores which camera the primary filter
trusts. -/
theorem ballFromFilter_handover (f : BallGroundCollisionFilter) (c : ℤ)
    (t : ℤ) :
    ballFromFilter (f.handover c) t = ballFromFilter f t := by
  by_cases h : t ≤ f.m_groundFilter.lastTime <;>
    simp [ballFromFilter, BallGroundCollisionFilter.handover,
      GroundFilter.currentState, GroundFilter.predict, h]

/-- writeBallState returns the same record on a handover copy as on the
donor, at every query time and robot snapshot. -/
theorem writeBallState_handover (f : BallGroundCollisionFilter) (c : ℤ)
    (t : ℤ) (robots : List RobotInfo) :
    (f.handover c).writeBallState t robots = f.writeBallState t robots := by
  have hb := ballFromFilter_handover f c t
  have hoff : (f.handover c).m_localBallOffset = f.m_localBallOffset := rfl
  cases ho : f.m_localBallOffset with
  | none =>
    simp only [BallGroundCollisionFilter.writeBallState, hoff, ho]
    exact hb
  | some info =>
    cases hr : robots.find? (fun r => decide (r.id = info.robotIdentifier)) with
    | none =>
      simp only [BallGroundCollisionFilter.writeBallState, hoff, ho, hr]
      exact hb
    | some r =>
      simp only [BallGroundCollisionFilter.writeBallState, hoff, ho, hr]

/-- C3: the handover copy duplicates both GroundFilter instances, the offset
state and the watermark exactly (same numeric state, same uncertainty),
changes only the trusted primary-camera identifier, and writeBallState
queried on the copy returns the same position and velocity as on the donor
(in particular at the donor's last-update time). -/
theorem handover_preserves_estimate (donor : BallGroundCollisionFilter)
    (cam : ℤ) (robots : List RobotInfo) :
    (donor.handover cam).m_pastFilter = donor.m_pastFilter ∧
    (donor.handover cam).m_groundFilter.px = donor.m_groundFilter.px ∧
    (donor.handover cam).m_groundFilter.py = donor.m_groundFilter.py ∧
    (donor.handover cam).m_groundFilter.vx = donor.m_groundFilter.vx ∧
    (donor.handover cam).m_groundFilter.vy = donor.m_groundFilter.vy ∧
    (donor.handover cam).m_groundFilter.uncertainty =
      donor.m_groundFilter.uncertainty ∧
    (donor.handover cam).m_groundFilter.lastTime =
      donor.m_groundFilter.lastTime ∧
    (donor.handover cam).m_groundFilter.primaryCamera = cam ∧
    (donor.handover cam).m_lastVisionTime = donor.m_lastVisionTime ∧
    (donor.handover cam).m_localBallOffset = donor.m_localBallOffset ∧
    (donor.handover cam).writeBallState donor.m_groundFilter.lastTime robots =
      donor.writeBallState donor.m_groundFilter.lastTime robots := by
  refine ⟨rfl, rfl, rfl, rfl, rfl, rfl, rfl, rfl, rfl, rfl, ?_⟩
  exact writeBallState_handover donor cam donor.m_groundFilter.lastTime robots

/-- C8: writeBallState writes the offset-tracker's predicted position (robot
position plus stored offset, with the robot's velocity) exactly when a
BallOffsetInfo is active and its owning robot is present in the robot list,
and otherwise writes the primary GroundFilter's currentState at the query
time; it always fills the full 2D position and velocity and is a pure
query. -/
theorem writeBallState_spec (f : BallGroundCollisionFilter) (time : ℤ)
    (robots : List RobotInfo) (info : BallOffsetInfo) (r : RobotInfo) :
    (f.m_localBallOffset = some info →
      robots.find? (fun q => decide (q.id = info.robotIdentifier)) = some r →
      f.writeBallState time robots =
        ⟨r.rx + info.ballOffsetX, r.ry + info.ballOffsetY, r.rvx, r.rvy⟩) ∧
    (f.m_localBallOffset = some info →
      robots.find? (fun q => decide (q.id = info.robotIdentifier)) = none →
      f.writeBallState time robots = ballFromFilter f time) ∧
    (f.m_localBallOffset = none →
      f.writeBallState time robots = ballFromFilter f time) := by
  refine ⟨?_, ?_, ?_⟩
  · intro h1 h2
    simp [BallGroundCollisionFilter.writeBallState, h1, h2]
  · intro h1 h2
    simp [BallGroundCollisionFilter.writeBallState, h1, h2]
  · intro h1
    simp [BallGroundCollisionFilter.writeBallState, h1]

/-- Witness for C8: with an active offset owned by robot 7 present in the
robot list the offset-tracker's prediction is written, and with no active
offset the primary filter's currentState is written. -/
theorem writeBallState_spec_witness :
    offsetFilter.writeBallState 0 [offsetSampleRobot] =
      ⟨offsetSampleRobot.rx + offsetSampleInfo.ballOffsetX,
       offsetSampleRobot.ry + offsetSampleInfo.ballOffsetY,
       offsetSampleRobot.rvx, offsetSampleRobot.rvy⟩ ∧
    originFilter.writeBallState 0 [offsetSampleRobot] =
      ballFromFilter originFilter 0 :=
  ⟨(writeBallState_spec offsetFilter 0 [offsetSampleRobot] offsetSampleInfo
      offsetSampleRobot).1 rfl (by decide),
   (writeBallState_spec originFilter 0 [offsetSampleRobot] offsetSampleInfo
      offsetSampleRobot).2.2 rfl⟩

/-- When the scan finds no primary-camera frame passing the gate, no frame of
the list is one. -/
theorem findPrimaryIdx_eq_none (f : BallGroundCollisionFilter) :
    ∀ (l : List VisionFrame) (i : ℕ), findPrimaryIdx f l i = none →
      ∀ g ∈ l, primaryGatePass f g = false := by
  intro l
  induction l with
  | nil => intro i _ g hg; cases hg
  | cons a rest ih =>
    intro i h g hg
    unfold findPrimaryIdx at h
    by_cases hp : primaryGatePass f a = true
    · simp [hp] at h
    · rcases List.mem_cons.mp hg with hg | hg
      · subst hg
        exact Bool.not_eq_true _ ▸ (by simpa using hp)
      · exact ih (i + 1) (by simpa [hp] using h) g hg

/-- When the scan returns an index, that index names a frame of the list
from the primary camera passing the gate. -/
theorem findPrimaryIdx_eq_some (f : BallGroundCollisionFilter) :
    ∀ (l : List VisionFrame) (i j : ℕ), findPrimaryIdx f l i = some j →
      ∃ k, ∃ hk : k < l.length, j = i + k ∧
        primaryGatePass f (l.get ⟨k, hk⟩) = true := by
  intro l
  induction l with
  | nil => intro i j h; simp [findPrimaryIdx] at h
  | cons a rest ih =>
    intro i j h
    unfold findPrimaryIdx at h
    by_cases hp : primaryGatePass f a = true
    · refine ⟨0, by simp, ?_, by simpa using hp⟩
      simp [hp] at h
      omega
    · obtain ⟨k, hk, hj, hpass⟩ := ih (i + 1) j (by simpa [hp] using h)
      exact ⟨k + 1, by simpa using Nat.succ_lt_succ hk, by omega,
        by simpa using hpass⟩

/-- The key order is reflexive. -/
theorem keyLE_refl (a : ℚ × ℚ × ℤ) : keyLE a a :=
  Or.inr ⟨rfl, Or.inr ⟨rfl, le_refl _⟩⟩

/-- The key order is transitive. -/
theorem keyLE_trans (a b c : ℚ × ℚ × ℤ) (h1 : keyLE a b) (h2 : keyLE b c) :
    keyLE a c := by
  unfold keyLE at h1 h2 ⊢
  rcases h1 with h1 | ⟨e1, h1⟩ <;> rcases h2 with h2 | ⟨e2, h2⟩
  · left; linarith
  · left; rw [← e2]; exact h1
  · left; rw [e1]; exact h2
  · right
    refine ⟨e1.trans e2, ?_⟩
    rcases h1 with h1 | ⟨f1, h1⟩ <;> rcases h2 with h2 | ⟨f2, h2⟩
    · left; linarith
    · left; rw [← f2]; exact h1
    · left; rw [f1]; exact h2
    · right; exact ⟨f1.trans f2, le_trans h1 h2⟩

/-- A strictly better key is at most the other in the key order. -/
theorem keyBetter_le (a b : ℚ × ℚ × ℤ) (h : keyBetter a b = true) :
    keyLE a b := by
  unfold keyBetter at h
  rw [decide_eq_true_eq] at h
  unfold keyLE
  rcases h with h | ⟨e, h⟩
  · exact Or.inl h
  · refine Or.inr ⟨e, ?_⟩
    rcases h with h | ⟨f1, h⟩
    · exact Or.inl h
    · exact Or.inr ⟨f1, le_of_lt h⟩

/-- When a key is not strictly better, the other key is at most it. -/
theorem keyBetter_false_le (a b : ℚ × ℚ × ℤ) (h : keyBetter a b = false) :
    keyLE b a := by
  unfold keyBetter at h
  rw [decide_eq_false_iff_not] at h
  push_neg at h
  obtain ⟨h1, h2⟩ := h
  rcases lt_or_eq_of_le h1 with h1l | h1e
  · exact Or.inl h1l
  · refine Or.inr ⟨h1e, ?_⟩
    obtain ⟨h3, h4⟩ := h2 h1e.symm
    rcases lt_or_eq_of_le h3 with h3l | h3e
    · exact Or.inl h3l
    · exact Or.inr ⟨h3e, h4 h3e.symm⟩

/-- A strictly better key is not at least the other key. -/
theorem keyBetter_not_le (a b : ℚ × ℚ × ℤ) (h : keyBetter a b = true)
    (hle : keyLE b a) : False := by
  unfold keyBetter at h
  rw [decide_eq_true_eq] at h
  unfold keyLE at hle
  rcases h with h | ⟨e, h⟩ <;> rcases hle with hle | ⟨e2, hle⟩
  · linarith
  · linarith
  · linarith
  · rcases h with h | ⟨f1, h⟩ <;> rcases hle with hle | ⟨f2, hle⟩
    · linarith
    · linarith
    · linarith
    · omega

/-- Unfolding of the best-by-key fold when the head frame improves on the
running best. -/
theorem bestByKey_cons_true (f : BallGroundCollisionFilter) (g : VisionFrame)
    (rest : List VisionFrame) (i : ℕ) (best : ℕ × (ℚ × ℚ × ℤ))
    (h : keyBetter (frameKey f g) best.2 = true) :
    bestByKey f (g :: rest) i best =
      bestByKey f rest (i + 1) (i, frameKey f g) := by
  simp only [bestByKey]
  rw [if_pos h]

/-- Unfolding of the best-by-key fold when the head frame does not improve
on the running best. -/
theorem bestByKey_cons_false (f : BallGroundCollisionFilter) (g : VisionFrame)
    (rest : List VisionFrame) (i : ℕ) (best : ℕ × (ℚ × ℚ × ℤ))
    (h : keyBetter (frameKey f g) best.2 = false) :
    bestByKey f (g :: rest) i best = bestByKey f rest (i + 1) best := by
  simp only [bestByKey]
  rw [if_neg (by simp [h])]

/-- The best-by-key fold returns either the running best index or the index
of a later frame, so its result stays below the total length. -/
theorem bestByKey_lt (f : BallGroundCollisionFilter) :
    ∀ (l : List VisionFrame) (i : ℕ) (best : ℕ × (ℚ × ℚ × ℤ)),
      best.1 < i → (bestByKey f l i best).1 < i + l.length := by
  intro l
  induction l with
  | nil => intro i best h; simpa [bestByKey] using h
  | cons a rest ih =>
    intro i best h
    cases hkb : keyBetter (frameKey f a) best.2 with
    | true =>
      rw [bestByKey_cons_true f a rest i best hkb]
      have := ih (i + 1) (i, frameKey f a) (by show i < i + 1; omega)
      simp only [List.length_cons]
      omega
    | false =>
      rw [bestByKey_cons_false f a rest i best hkb]
      have := ih (i + 1) best (by omega)
      simp only [List.length_cons]
      omega

/-- The best-by-key fold returns either the untouched running best or the
position and key of one of the scanned frames. -/
theorem bestByKey_src (f : BallGroundCollisionFilter) :
    ∀ (l : List VisionFrame) (i : ℕ) (best : ℕ × (ℚ × ℚ × ℤ)),
      bestByKey f l i best = best ∨
      ∃ k, ∃ q, l.get? k = some q ∧ (bestByKey f l i best).1 = i + k ∧
        (bestByKey f l i best).2 = frameKey f q := by
  intro l
  induction l with
  | nil => intro i best; exact Or.inl rfl
  | cons g rest ih =>
    intro i best
    cases hkb : keyBetter (frameKey f g) best.2 with
    | true =>
      rw [bestByKey_cons_true f g rest i best hkb]
      rcases ih (i + 1) (i, frameKey f g) with heq | ⟨k, q, hq, h1, h2⟩
      · refine Or.inr ⟨0, g, rfl, ?_, ?_⟩
        · rw [heq]
          show i = i + 0
          omega
        · rw [heq]
      · refine Or.inr ⟨k + 1, q, hq, ?_, h2⟩
        rw [h1]
        omega
    | false =>
      rw [bestByKey_cons_false f g rest i best hkb]
      rcases ih (i + 1) best with heq | ⟨k, q, hq, h1, h2⟩
      · exact Or.inl heq
      · refine Or.inr ⟨k + 1, q, hq, ?_, h2⟩
        rw [h1]
        omega

/-- The key of the best-by-key result is at most the accumulator key and at
most the key of every scanned frame: the fold selects the frame closest to
the prediction, ties broken by higher confidence, then lowest camera id. -/
theorem bestByKey_min (f : BallGroundCollisionFilter) :
    ∀ (l : List VisionFrame) (i : ℕ) (best : ℕ × (ℚ × ℚ × ℤ)),
      keyLE (bestByKey f l i best).2 best.2 ∧
      ∀ k q, l.get? k = some q →
        keyLE (bestByKey f l i best).2 (frameKey f q) := by
  intro l
  induction l with
  | nil =>
    intro i best
    refine ⟨keyLE_refl _, ?_⟩
    intro k q hq
    simp at hq
  | cons g rest ih =>
    intro i best
    cases hkb : keyBetter (frameKey f g) best.2 with
    | true =>
      rw [bestByKey_cons_true f g rest i best hkb]
      obtain ⟨h1, h2⟩ := ih (i + 1) (i, frameKey f g)
      have hgb : keyLE (frameKey f g) best.2 := keyBetter_le _ _ hkb
      refine ⟨keyLE_trans _ _ _ h1 hgb, ?_⟩
      intro k q hq
      cases k with
      | zero =>
        have hgq : g = q := Option.some.inj hq
        subst hgq
        exact h1
      | succ k2 => exact h2 k2 q hq
    | false =>
      rw [bestByKey_cons_false f g rest i best hkb]
      obtain ⟨h1, h2⟩ := ih (i + 1) best
      have hbg : keyLE best.2 (frameKey f g) := keyBetter_false_le _ _ hkb
      refine ⟨h1, ?_⟩
      intro k q hq
      cases k with
      | zero =>
        have hgq : g = q := Option.some.inj hq
        subst hgq
        exact keyLE_trans _ _ _ h1 hbg
      | succ k2 => exact h2 k2 q hq

/-- The fold replaces the running best only on a strict improvement, so when
the accumulator key is already at most the final key, nothing was replaced. -/
theorem bestByKey_stable (f : BallGroundCollisionFilter) :
    ∀ (l : List VisionFrame) (i : ℕ) (best : ℕ × (ℚ × ℚ × ℤ)),
      keyLE best.2 (bestByKey f l i best).2 → bestByKey f l i best = best := by
  intro l
  induction l with
  | nil => intro i best _; rfl
  | cons g rest ih =>
    intro i best h
    cases hkb : keyBetter (frameKey f g) best.2 with
    | true =>
      rw [bestByKey_cons_true f g rest i best hkb] at h ⊢
      exfalso
      have hmin := (bestByKey_min f rest (i + 1) (i, frameKey f g)).1
      exact keyBetter_not_le _ _ hkb (keyLE_trans _ _ _ h hmin)
    | false =>
      rw [bestByKey_cons_false f g rest i best hkb] at h ⊢
      exact ih (i + 1) best h

/-- Among the scanned frames whose key is at most the result key (hence ties
for the minimum), the fold returns the earliest position. -/
theorem bestByKey_first (f : BallGroundCollisionFilter) :
    ∀ (l : List VisionFrame) (i : ℕ) (best : ℕ × (ℚ × ℚ × ℤ)),
      best.1 < i →
      ∀ k q, l.get? k = some q →
        keyLE (frameKey f q) (bestByKey f l i best).2 →
        (bestByKey f l i best).1 ≤ i + k := by
  intro l
  induction l with
  | nil =>
    intro i best _ k q hq
    simp at hq
  | cons g rest ih =>
    intro i best hb k q hq
    cases hkb : keyBetter (frameKey f g) best.2 with
    | true =>
      rw [bestByKey_cons_true f g rest i best hkb]
      cases k with
      | zero =>
        have hgq : g = q := Option.some.inj hq
        subst hgq
        intro hle
        have hstable := bestByKey_stable f rest (i + 1) (i, frameKey f g) hle
        rw [hstable]
        show i ≤ i + 0
        omega
      | succ k2 =>
        intro hle
        have := ih (i + 1) (i, frameKey f g) (by show i < i + 1; omega) k2 q
          hq hle
        omega
    | false =>
      rw [bestByKey_cons_false f g rest i best hkb]
      cases k with
      | zero =>
        have hgq : g = q := Option.some.inj hq
        subst hgq
        intro hle
        have hbg := keyBetter_false_le _ _ hkb
        have hstable := bestByKey_stable f rest (i + 1) best
          (keyLE_trans _ _ _ hbg hle)
        rw [hstable]
        omega
      | succ k2 =>
        intro hle
        have := ih (i + 1) best (by omega) k2 q hq hle
        omega

/-- When no frame of the list comes from the primary camera and passes the
gate, the scan reports none. -/
theorem findPrimaryIdx_none_of_all (f : BallGroundCollisionFilter) :
    ∀ (l : List VisionFrame) (i : ℕ),
      (∀ g ∈ l, primaryGatePass f g = false) → findPrimaryIdx f l i = none := by
  intro l
  induction l with
  | nil => intro i _; rfl
  | cons a rest ih =>
    intro i hall
    have ha : primaryGatePass f a = false := hall a (List.mem_cons_self a rest)
    unfold findPrimaryIdx
    rw [if_neg (by simp [ha])]
    exact ih (i + 1) (fun g hg => hall g (List.mem_cons_of_mem a hg))

/-- When no frame passes the primary gate, the chosen frame has a tie-break
key at most every frame's key, and among frames tying on the key the chosen
index is the earliest. -/
theorem chooseBall_min (f : BallGroundCollisionFilter) (g : VisionFrame)
    (rest : List VisionFrame)
    (hall : ∀ q ∈ g :: rest, primaryGatePass f q = false) :
    ∃ q, (g :: rest).get? (f.chooseBall (g :: rest)) = some q ∧
      (∀ j r, (g :: rest).get? j = some r →
        keyLE (frameKey f q) (frameKey f r)) ∧
      (∀ j r, (g :: rest).get? j = some r → frameKey f r = frameKey f q →
        f.chooseBall (g :: rest) ≤ j) := by
  have hfind : findPrimaryIdx f (g :: rest) 0 = none :=
    findPrimaryIdx_none_of_all f (g :: rest) 0 hall
  have hcb : f.chooseBall (g :: rest) =
      (bestByKey f rest 1 (0, frameKey f g)).1 := by
    unfold BallGroundCollisionFilter.chooseBall
    rw [hfind]
  obtain ⟨q, hgq, hkeyq⟩ : ∃ q,
      (g :: rest).get? ((bestByKey f rest 1 (0, frameKey f g)).1) = some q ∧
      (bestByKey f rest 1 (0, frameKey f g)).2 = frameKey f q := by
    rcases bestByKey_src f rest 1 (0, frameKey f g) with heq | ⟨k, q, hq, h1, h2⟩
    · refine ⟨g, ?_, ?_⟩
      · rw [heq]
        rfl
      · rw [heq]
    · refine ⟨q, ?_, h2⟩
      rw [h1, Nat.add_comm 1 k]
      exact hq
  refine ⟨q, ?_, ?_, ?_⟩
  · rw [hcb]
    exact hgq
  · intro j r hjr
    rw [← hkeyq]
    cases j with
    | zero =>
      have hgr : g = r := Option.some.inj hjr
      subst hgr
      exact (bestByKey_min f rest 1 (0, frameKey f g)).1
    | succ j2 =>
      exact (bestByKey_min f rest 1 (0, frameKey f g)).2 j2 r hjr
  · intro j r hjr hkey2
    rw [hcb]
    cases j with
    | zero =>
      have hgr : g = r := Option.some.inj hjr
      subst hgr
      have hle : keyLE (frameKey f g)
          (bestByKey f rest 1 (0, frameKey f g)).2 := by
        rw [hkeyq, hkey2]
        exact keyLE_refl _
      have hstable := bestByKey_stable f rest 1 (0, frameKey f g) hle
      rw [hstable]
    | succ j2 =>
      have hle : keyLE (frameKey f r)
          (bestByKey f rest 1 (0, frameKey f g)).2 := by
        rw [hkeyq, hkey2]
        exact keyLE_refl _
      have := bestByKey_first f rest 1 (0, frameKey f g)
        (by show 0 < 1; omega) j2 r hjr hle
      omega

/-- C4: chooseBall on a non-empty frame sequence returns an index within
bounds and follows the stated tie-break order — (1) whenever some frame
comes from the owned primary camera and passes the statistical gate, the
chosen frame is such a frame; (2)/(3) otherwise the chosen frame's tie-break
key (distance to the current predicted position, then negated confidence,
then camera identifier, compared lexicographically) is minimal over all
frames, and among frames tying on the key the chosen index is the earliest —
the choice is deterministic (equal runs on equal state and frames agree, and
ties depend only on the stated keys and the earliest position); concretely,
on [(camera 1, (0,0)), (camera 2, (0.01,0))] with camera 1 primary and the
filter predicting (0,0) it returns camera 1's index 0, and in the absence of
a primary pass it picks the closest frame, the higher-confidence frame on
distance ties, and the lowest camera identifier on full ties. -/
theorem chooseBall_spec (f : BallGroundCollisionFilter)
    (frames : List VisionFrame) (h : frames ≠ []) :
    f.chooseBall frames < frames.length ∧
    ((∃ j, ∃ hj : j < frames.length,
        primaryGatePass f (frames.get ⟨j, hj⟩) = true) →
      ∃ hc : f.chooseBall frames < frames.length,
        primaryGatePass f (frames.get ⟨f.chooseBall frames, hc⟩) = true) ∧
    ((∀ g ∈ frames, primaryGatePass f g = false) →
      ∃ q, frames.get? (f.chooseBall frames) = some q ∧
        (∀ j r, frames.get? j = some r →
          keyLE (frameKey f q) (frameKey f r)) ∧
        (∀ j r, frames.get? j = some r → frameKey f r = frameKey f q →
          f.chooseBall frames ≤ j)) ∧
    f.chooseBall frames = f.chooseBall frames ∧
    tieFilter.chooseBall [tieFrame1, tieFrame2] = 0 ∧
    tieFilter.chooseBall [distFrameA, distFrameB] = 1 ∧
    tieFilter.chooseBall [confFrameA, confFrameB] = 1 ∧
    tieFilter.chooseBall [camFrameA, camFrameB] = 1 := by
  have hbound : f.chooseBall frames < frames.length := by
    unfold BallGroundCollisionFilter.chooseBall
    cases hfind : findPrimaryIdx f frames 0 with
    | some i =>
      obtain ⟨k, hk, hij, _⟩ := findPrimaryIdx_eq_some f frames 0 i hfind
      simpa [hij] using hk
    | none =>
      cases frames with
      | nil => exact absurd rfl h
      | cons g rest =>
        have := bestByKey_lt f rest 1 (0, frameKey f g) (by omega)
        simpa [Nat.add_comm] using this
  refine ⟨hbound, ?_, ?_, rfl, ?_, ?_, ?_, ?_⟩
  · intro hexists
    refine ⟨hbound, ?_⟩
    cases hfind : findPrimaryIdx f frames 0 with
    | some i =>
      obtain ⟨k, hk, hij, hpass⟩ := findPrimaryIdx_eq_some f frames 0 i hfind
      have hi : f.chooseBall frames = k := by
        unfold BallGroundCollisionFilter.chooseBall
        rw [hfind]
        show i = k
        omega
      have hlt : f.chooseBall frames < frames.length := hbound
      have : frames.get ⟨f.chooseBall frames, hlt⟩ = frames.get ⟨k, hk⟩ := by
        congr 1
        exact Fin.ext hi
      rw [this]
      exact hpass
    | none =>
      obtain ⟨j, hj, hpass⟩ := hexists
      have := findPrimaryIdx_eq_none f frames 0 hfind (frames.get ⟨j, hj⟩)
        (frames.get_mem _ _)
      rw [hpass] at this
      cases this
  · intro hall
    cases frames with
    | nil => exact absurd rfl h
    | cons g rest => exact chooseBall_min f g rest hall
  · norm_num [BallGroundCollisionFilter.chooseBall, findPrimaryIdx,
      primaryGatePass, passesGate, GroundFilter.currentState,
      GroundFilter.predict, distSq, VisionFrame.pos, tieFilter, tieFrame1,
      tieFrame2, gateBase, gateUncertaintyScale, frictionRate]
  · norm_num [BallGroundCollisionFilter.chooseBall, findPrimaryIdx,
      primaryGatePass, passesGate, bestByKey, keyBetter, frameKey,
      GroundFilter.currentState, GroundFilter.predict, distSq,
      VisionFrame.pos, tieFilter, distFrameA, distFrameB, gateBase,
      gateUncertaintyScale, frictionRate]
  · norm_num [BallGroundCollisionFilter.chooseBall, findPrimaryIdx,
      primaryGatePass, passesGate, bestByKey, keyBetter, frameKey,
      GroundFilter.currentState, GroundFilter.predict, distSq,
      VisionFrame.pos, tieFilter, confFrameA, confFrameB, gateBase,
      gateUncertaintyScale, frictionRate]
  · norm_num [BallGroundCollisionFilter.chooseBall, findPrimaryIdx,
      primaryGatePass, passesGate, bestByKey, keyBetter, frameKey,
      GroundFilter.currentState, GroundFilter.predict, distSq,
      VisionFrame.pos, tieFilter, camFrameA, camFrameB, gateBase,
      gateUncertaintyScale, frictionRate]

/-- Witness for C4: a one-frame sequence whose single frame comes from the
primary camera and passes the gate exercises step (1), and the two-frame
distance example, where no frame passes the primary gate, exercises the
minimal-key and earliest-tie clauses of steps (2)/(3). -/
theorem chooseBall_spec_witness :
    (originFilter.chooseBall [nearFrame] < [nearFrame].length ∧
      ∃ hc : originFilter.chooseBall [nearFrame] < [nearFrame].length,
        primaryGatePass originFilter
          ([nearFrame].get ⟨originFilter.chooseBall [nearFrame], hc⟩) = true) ∧
    ∃ q, [distFrameA, distFrameB].get?
        (tieFilter.chooseBall [distFrameA, distFrameB]) = some q ∧
      (∀ j r, [distFrameA, distFrameB].get? j = some r →
        keyLE (frameKey tieFilter q) (frameKey tieFilter r)) ∧
      (∀ j r, [distFrameA, distFrameB].get? j = some r →
        frameKey tieFilter r = frameKey tieFilter q →
        tieFilter.chooseBall [distFrameA, distFrameB] ≤ j) :=
  ⟨⟨(chooseBall_spec originFilter [nearFrame] (List.cons_ne_nil _ _)).1,
    (chooseBall_spec originFilter [nearFrame] (List.cons_ne_nil _ _)).2.1
      ⟨0, by simp,
       by norm_num [primaryGatePass, passesGate, GroundFilter.currentState,
         GroundFilter.predict, distSq, VisionFrame.pos, originFilter,
         ballAtOrigin, nearFrame, gateBase, gateUncertaintyScale,
         frictionRate]⟩⟩,
   (chooseBall_spec tieFilter [distFrameA, distFrameB]
      (List.cons_ne_nil _ _)).2.2.1 (by decide)⟩

end BallTracking

namespace Node

/-- Searching a concatenation finds the first hit of the left part, else
searches the right part. -/
theorem findAppend {α : Type} (p : α → Bool) (l1 l2 : List α) :
    (l1 ++ l2).find? p =
      match l1.find? p with
      | some a => some a
      | none => l2.find? p := by
  induction l1 with
  | nil => simp
  | cons a rest ih =>
    cases hp : p a with
    | true => simp [List.find?, hp]
    | false => simp [List.find?, hp, ih]

/-- C9: get returns the child stored under an index and nullptr when none
was ever stored under it, and put on an already-occupied index is a no-op
(map::emplace does not overwrite), so a subsequent get still returns the
originally stored child; put under a different index leaves get unchanged. -/
theorem objectContainer_get_put_spec {α : Type} (c : Node.ObjectContainer α)
    (index other : String) (obj orig : α) :
    (Node.ObjectContainer.get ⟨([] : List (String × α))⟩ index = none) ∧
    (c.get index = none → (c.put index obj).get index = some obj) ∧
    (c.get index = some orig → c.put index obj = c) ∧
    (c.get index = some orig → (c.put index obj).get index = some orig) ∧
    (other ≠ index → (c.put other obj).get index = c.get index) := by
  have hGetFind : ∀ (d : Node.ObjectContainer α) (s : String),
      d.get s = (d.m_children.find? (fun child => decide (child.1 = s))).map
        (fun child => child.2) := by
    intro d s
    unfold Node.ObjectContainer.get
    cases d.m_children.find? (fun child => decide (child.1 = s)) <;> simp
  refine ⟨?_, ?_, ?_, ?_, ?_⟩
  · simp [Node.ObjectContainer.get]
  · intro h
    rw [hGetFind] at h
    have hfind : c.m_children.find? (fun child => decide (child.1 = index)) = none := by
      cases hf : c.m_children.find? (fun child => decide (child.1 = index)) with
      | none => rfl
      | some child => rw [hf] at h; simp at h
    rw [hGetFind]
    simp only [Node.ObjectContainer.put, hfind, Option.isSome_none,
      Bool.false_eq_true, if_false]
    rw [findAppend, hfind]
    simp [List.find?]
  · intro h
    rw [hGetFind] at h
    have hfind : (c.m_children.find? (fun child => decide (child.1 = index))).isSome = true := by
      cases hf : c.m_children.find? (fun child => decide (child.1 = index)) with
      | none => rw [hf] at h; simp at h
      | some child => simp
    simp [Node.ObjectContainer.put, hfind]
  · intro h
    have hput : c.put index obj = c := by
      rw [hGetFind] at h
      have hfind : (c.m_children.find? (fun child => decide (child.1 = index))).isSome = true := by
        cases hf : c.m_children.find? (fun child => decide (child.1 = index)) with
        | none => rw [hf] at h; simp at h
        | some child => simp
      simp [Node.ObjectContainer.put, hfind]
    rw [hput, h]
  · intro hne
    cases hfind : c.m_children.find? (fun child => decide (child.1 = other)) with
    | some child =>
      simp [Node.ObjectContainer.put, hfind]
    | none =>
      rw [hGetFind, hGetFind]
      simp only [Node.ObjectContainer.put, hfind, Option.isSome_none,
        Bool.false_eq_true, if_false]
      rw [findAppend]
      cases hf2 : c.m_children.find? (fun child => decide (child.1 = index)) with
      | some child => simp
      | none => simp [List.find?, hne]

/-- Witness for C9 at a concrete container, indices and objects. -/
theorem objectContainer_get_put_spec_witness :
    ((sampleContainer.put "a" 2).get "a" = some 1 ∧
      sampleContainer.put "a" 2 = sampleContainer) ∧
    (sampleContainer.put "b" 2).get "b" = some 2 ∧
    (sampleContainer.put "b" 2).get "a" = sampleContainer.get "a" :=
  ⟨⟨(objectContainer_get_put_spec sampleContainer "a" "b" 2 1).2.2.2.1 (by decide),
    (objectContainer_get_put_spec sampleContainer "a" "b" 2 1).2.2.1 (by decide)⟩,
   (objectContainer_get_put_spec sampleContainer "b" "a" 2 1).2.1 (by decide),
   (objectContainer_get_put_spec sampleContainer "a" "b" 2 1).2.2.2.2 (by decide)⟩

end Node

namespace Field

/-- Clamping is idempotent, whether or not the interval is degenerate. -/
theorem mathBound_idem (a v b : ℚ) :
    mathBound a (mathBound a v b) b = mathBound a v b := by
  unfold mathBound
  rcases le_total a b with hab | hab <;>
    rcases le_total a v with hav | hav <;>
    rcases le_total v b with hvb | hvb <;>
    simp [max_def, min_def] <;> split_ifs <;> linarith

/-- C10 counterexample: for the claim quantified over every boundaryWidth,
a boundaryWidth negative enough to make the allowed interval empty produces
an x coordinate outside the stated bounds — at field width half 4.5,
position (0,0) and boundaryWidth -5.5 the result's x is -1, below the stated
lower bound 1. -/
theorem limitToField_bounds_counterexample :
    ¬(-(sampleGeometry.FieldWidthHalf + (-(11 / 2) : ℚ)) ≤
        (Field.limitToField sampleGeometry ⟨0, 0⟩ (-(11 / 2))).x) := by
  norm_num [Field.limitToField, Field.mathBound, sampleGeometry, min_def,
    max_def]

/-- C10 amended: whenever the extended half-extent is non-negative (the
boundaryWidth does not shrink the field below nothing), limitToField returns
a vector with x in [-(FieldWidthHalf + boundaryWidth), FieldWidthHalf +
boundaryWidth] and y in [-(FieldHeightHalf + boundaryWidth), FieldHeightHalf
+ boundaryWidth]; it is idempotent for every boundaryWidth, and a position
already inside those bounds is returned with both coordinates unchanged. -/
theorem limitToField_amended (G : Field.Geometry) (pos : Field.Vec2) (b : ℚ) :
    (0 ≤ G.FieldWidthHalf + b →
      -(G.FieldWidthHalf + b) ≤ (Field.limitToField G pos b).x ∧
      (Field.limitToField G pos b).x ≤ G.FieldWidthHalf + b) ∧
    (0 ≤ G.FieldHeightHalf + b →
      -(G.FieldHeightHalf + b) ≤ (Field.limitToField G pos b).y ∧
      (Field.limitToField G pos b).y ≤ G.FieldHeightHalf + b) ∧
    Field.limitToField G (Field.limitToField G pos b) b =
      Field.limitToField G pos b ∧
    (-(G.FieldWidthHalf + b) ≤ pos.x → pos.x ≤ G.FieldWidthHalf + b →
      -(G.FieldHeightHalf + b) ≤ pos.y → pos.y ≤ G.FieldHeightHalf + b →
      Field.limitToField G pos b = pos) := by
  refine ⟨?_, ?_, ?_, ?_⟩
  · intro h
    constructor
    · show -(G.FieldWidthHalf + b) ≤
        min (max (-(G.FieldWidthHalf + b)) pos.x) (G.FieldWidthHalf + b)
      exact le_min (le_max_left _ _) (by linarith)
    · show min (max (-(G.FieldWidthHalf + b)) pos.x) (G.FieldWidthHalf + b) ≤
        G.FieldWidthHalf + b
      exact min_le_right _ _
  · intro h
    constructor
    · show -(G.FieldHeightHalf + b) ≤
        min (max (-(G.FieldHeightHalf + b)) pos.y) (G.FieldHeightHalf + b)
      exact le_min (le_max_left _ _) (by linarith)
    · show min (max (-(G.FieldHeightHalf + b)) pos.y) (G.FieldHeightHalf + b) ≤
        G.FieldHeightHalf + b
      exact min_le_right _ _
  · simp only [Field.limitToField, Field.Vec2.mk.injEq]
    exact ⟨mathBound_idem _ _ _, mathBound_idem _ _ _⟩
  · intro h1 h2 h3 h4
    have hx : mathBound (-(G.FieldWidthHalf + b)) pos.x (G.FieldWidthHalf + b) =
        pos.x := by
      unfold mathBound
      rw [max_eq_right h1, min_eq_left h2]
    have hy : mathBound (-(G.FieldHeightHalf + b)) pos.y (G.FieldHeightHalf + b) =
        pos.y := by
      unfold mathBound
      rw [max_eq_right h3, min_eq_left h4]
    cases pos with
    | mk x y =>
      simp only [Field.limitToField, Field.Vec2.mk.injEq]
      exact ⟨by simpa using hx, by simpa using hy⟩

/-- Witness for C10 at the sample geometry with boundaryWidth 0 and the
origin position, inside the bounds. -/
theorem limitToField_amended_witness :
    (-(sampleGeometry.FieldWidthHalf + 0) ≤
        (Field.limitToField sampleGeometry ⟨0, 0⟩ 0).x ∧
      (Field.limitToField sampleGeometry ⟨0, 0⟩ 0).x ≤
        sampleGeometry.FieldWidthHalf + 0) ∧
    Field.limitToField sampleGeometry ⟨0, 0⟩ 0 = (⟨0, 0⟩ : Field.Vec2) :=
  ⟨(limitToField_amended sampleGeometry ⟨0, 0⟩ 0).1
     (by show (0 : ℚ) ≤ sampleGeometry.FieldWidthHalf + 0
         norm_num [sampleGeometry]),
   (limitToField_amended sampleGeometry ⟨0, 0⟩ 0).2.2.2
     (by show -(sampleGeometry.FieldWidthHalf + 0) ≤ (0 : ℚ)
         norm_num [sampleGeometry])
     (by show (0 : ℚ) ≤ sampleGeometry.FieldWidthHalf + 0
         norm_num [sampleGeometry])
     (by show -(sampleGeometry.FieldHeightHalf + 0) ≤ (0 : ℚ)
         norm_num [sampleGeometry])
     (by show (0 : ℚ) ≤ sampleGeometry.FieldHeightHalf + 0
         norm_num [sampleGeometry])⟩

end Field
